import Mathlib

/-!
Shallow embedding of the multi-model fan-out / judge orchestration core of the
`etl-migration-agent` repository, together with theorems settling the frozen
claims about it.

The embedded Python code lives in:
* `src/services/base_agent_service.py` (resource lifecycle manager),
* `src/services/csv_comparison_agent_service.py` (single-model task runner,
  fan-out orchestrator, completion-continuation protocol, result extraction),
* `src/services/reorder_service.py` (reorder fan-out variant),
* `src/services/openai_service.py` (judge / selector),
* `src/utils/file_utils.py` (temp-file staging and cleanup).

Remote effects (Azure agent runs, file uploads/downloads, deletions, the
arbiter model call) are modelled as explicit environments/oracles passed to
the embedded functions; observable effect traces (which deletions were
attempted, how many runs were invoked, how many continuation prompts were
posted) are returned alongside the values the Python functions return.
-/

set_option autoImplicit false

namespace EtlAgent

/-- Model of Python `str.startswith(pre)`: `pre` is a prefix of `s`,
decided on the underlying character lists. -/
def pyStartsWith (s pre : String) : Bool :=
  pre.data.isPrefixOf s.data

/-- Model of Python truthiness of an `Optional[str]`: `None` and the empty
string are falsy, every other string is truthy. -/
def pyTruthyOptStr : Option String → Bool
  | none => false
  | some s => s ≠ ""

/-- Model of `model_name.replace('.', '_')` (single-character replacement is a
character-wise map). -/
def sanitize_model_name (m : String) : String :=
  String.mk (m.data.map fun c => if c = '.' then '_' else c)

/-!
### Fan-out collection (`_collect_successful_outputs`)

`asyncio.gather(..., return_exceptions=True)` hands the orchestrator, per
model, either a raised exception or the string the runner returned; this is
modelled as `Except String String` (`.error` = exception, `.ok` = returned
string).  The success mapping is a Python `dict` built by insertion: modelled
as an association list with Python-dict assignment semantics (overwrite in
place keeps the original position, fresh keys append).
-/

/-- Python `dict` assignment `d[k] = v` on an insertion-ordered dict. -/
def dict_insert (d : List (String × String)) (k v : String) :
    List (String × String) :=
  if d.any (fun p => p.1 = k) then
    d.map (fun p => if p.1 = k then (k, v) else p)
  else
    d ++ [(k, v)]

/-- Embedding of `CSVComparisonAgentService._collect_successful_outputs` (the
loop in `ReorderService._run_parallel_reordering` is character-for-character
the same filter): zip the configured deployments with the gathered results,
drop exceptions, drop strings starting with `"Error:"`, keep the rest. -/
def collect_successful_outputs (deployments : List String)
    (results : List (Except String String)) : List (String × String) :=
  (deployments.zip results).foldl
    (fun acc pr =>
      match pr.2 with
      | .error _ => acc
      | .ok s => if pyStartsWith s "Error:" then acc else dict_insert acc pr.1 s)
    []

/-!
### Judge / selector (`OpenAIService.select_best_csv_output`)

The arbiter model call may raise (network failure) or return a text; the call
outcome is the oracle `arbiter : Except String String`.  Python's
`list(model_outputs.values())[0]` raises `IndexError` on an empty dict, so
first-element access is embedded as an `Except`.
-/

/-- Python `list(model_outputs.values())[0]`: first value of the mapping, or
an uncaught `IndexError` when the mapping is empty. -/
def first_value (outputs : List (String × String)) : Except String String :=
  match outputs with
  | [] => .error "IndexError: list index out of range"
  | p :: _ => .ok p.2

/-- Embedding of `OpenAIService._prepare_numbered_outputs`: 1-based ordinals
in mapping iteration order. -/
def prepare_numbered_outputs (outputs : List (String × String)) :
    List (Nat × String × String) :=
  outputs.enum.map (fun p => (p.1 + 1, p.2))

/-- Model of Python `int(text)` on the short decimal responses the judge is
prompted to produce: optional surrounding spaces, an optional sign, then a
non-empty run of ASCII digits; any other shape raises `ValueError`
(modelled as `none`). -/
def py_int (s : String) : Option Int :=
  let chars := s.data.dropWhile (fun c => c = ' ')
  let chars := (chars.reverse.dropWhile (fun c => c = ' ')).reverse
  match chars with
  | [] => none
  | c :: rest =>
    let signed : Int × List Char :=
      if c = '-' then (-1, rest)
      else if c = '+' then (1, rest)
      else (1, c :: rest)
    if signed.2 ≠ [] ∧ signed.2.all (fun d => d.isDigit) then
      some (signed.1 *
        (signed.2.foldl (fun acc d => acc * 10 + (d.toNat - '0'.toNat)) 0 : Nat))
    else none

/-- Embedding of `OpenAIService._get_selection_number`: extract the arbiter
response text and convert it with `int(...)`; a non-numeric response raises
`ValueError`. -/
def get_selection_number (arbiter : Except String String) :
    Except String Int :=
  match arbiter with
  | .error e => .error e
  | .ok s =>
    match py_int s with
    | some n => .ok n
    | none => .error ("Invalid selection response: " ++ s)

/-- Embedding of `OpenAIService._get_selected_output`: return the output with
the selected ordinal, else fall back to the first value in iteration order. -/
def get_selected_output (numbered : List (Nat × String × String))
    (selected_num : Int) (outputs : List (String × String)) :
    Except String String :=
  match numbered.find? (fun t => ((t.1 : Int) == selected_num)) with
  | some t => .ok t.2.2
  | none => first_value outputs

/-- Embedding of `OpenAIService.select_best_csv_output`: a one-entry mapping
is returned immediately; otherwise the arbiter is consulted, and every
exception raised inside the `try` block (arbiter call, `int` conversion) is
caught and replaced by the first value in iteration order.  The result is
`.error` only when the fallback itself raises (empty mapping). -/
def select_best_csv_output (outputs : List (String × String))
    (arbiter : Except String String) : Except String String :=
  if outputs.length = 1 then
    first_value outputs
  else
    let numbered := prepare_numbered_outputs outputs
    let attempted : Except String String :=
      match get_selection_number arbiter with
      | .error e => .error e
      | .ok n => get_selected_output numbered n outputs
    match attempted with
    | .ok v => .ok v
    | .error _ => first_value outputs

/-!
### Single-model task runner (`_execute_agent_task`) and the
completion-continuation protocol

Each remote attempt is described by the environment: whether the `i`-th
`runs.create_and_process` call ends with status `"failed"`, its
`last_error`, and whether the latest agent message after the `i`-th run
contains the `TASK COMPLETED` marker.  The runner returns a tagged result
(whose `.toStr` is the exact string the Python function returns), the number
of runs invoked, and the number of continuation prompts posted.
-/

/-- `CSVComparisonAgentService.MAX_ATTEMPTS`. -/
def MAX_ATTEMPTS : Nat := 3

/-- Remote environment for one runner execution: attempt `i` (1-based) is
described by its run status, its `last_error`, and whether the completion
marker is present in the latest agent message after it; `extracted` is the
string `_extract_csv_results` would produce on the completed thread. -/
structure RunEnv where
  failed : Nat → Bool
  last_error : Nat → String
  marker_present : Nat → Bool
  extracted : String

/-- Tagged outcome of `_execute_agent_task`; the Python function returns the
carried string. -/
inductive RunnerResult where
  | run_failed (msg : String)
  | completed (msg : String)
  | exhausted (msg : String)
deriving DecidableEq, Repr

/-- The string `_execute_agent_task` actually returns. -/
def RunnerResult.toStr : RunnerResult → String
  | .run_failed m => m
  | .completed m => m
  | .exhausted m => m

/-- The retry-exhaustion message of `_execute_agent_task`. -/
def max_attempts_msg (model_name : String) : String :=
  "Maximum attempts reached without task completion for model " ++ model_name

/-- One iteration of the `for attempt in range(1, MAX_ATTEMPTS + 1)` loop of
`CSVComparisonAgentService._execute_agent_task`, with `fuel` the number of
loop iterations still permitted.  Returns (result, runs invoked,
continuation prompts posted). -/
def execute_agent_task_go (env : RunEnv) (model_name : String) :
    Nat → Nat → RunnerResult × Nat × Nat
  | _, 0 => (.exhausted (max_attempts_msg model_name), 0, 0)
  | attempt, fuel + 1 =>
    if env.failed attempt then
      (.run_failed ("Run failed: " ++ env.last_error attempt), 1, 0)
    else if env.marker_present attempt then
      (.completed env.extracted, 1, 0)
    else if attempt < MAX_ATTEMPTS then
      let r := execute_agent_task_go env model_name (attempt + 1) fuel
      (r.1, r.2.1 + 1, r.2.2 + 1)
    else
      (.exhausted (max_attempts_msg model_name), 1, 0)

/-- Embedding of `CSVComparisonAgentService._execute_agent_task`: run the
attempt loop starting at attempt 1 with `MAX_ATTEMPTS` iterations
permitted. -/
def execute_agent_task (env : RunEnv) (model_name : String) :
    RunnerResult × Nat × Nat :=
  execute_agent_task_go env model_name 1 MAX_ATTEMPTS

/-- The string `_execute_agent_task` returns (what `_run_comparison_sync`
hands to the orchestrator on the no-exception path). -/
def execute_agent_task_str (env : RunEnv) (model_name : String) : String :=
  (execute_agent_task env model_name).1.toStr

/-- Embedding of `ReorderService._execute_reorder_task`: a single
`create_and_process` call, no loop and no continuation prompt; a failed run
yields an `"Error:"`-prefixed string, otherwise the processed result is
returned.  Returns (result string, runs invoked, continuation prompts
posted). -/
def execute_reorder_task (env : RunEnv) (processed : String) :
    String × Nat × Nat :=
  if env.failed 1 then
    ("Error: Run failed: " ++ env.last_error 1, 1, 0)
  else
    (processed, 1, 0)

/-!
### Fan-out orchestrators
-/

/-- Embedding of the aggregation tail of
`CSVComparisonAgentService._run_parallel_comparisons`: collect the
successes; an empty mapping yields the distinguished all-failed string, a
one-entry mapping is returned verbatim, otherwise the judge
(`select_best_csv_output` in the source) is consulted.  The judge is a
parameter so that its (non-)invocation is observable. -/
def run_parallel_comparisons (deployments : List String)
    (results : List (Except String String))
    (judge : List (String × String) → String) : String :=
  let model_outputs := collect_successful_outputs deployments results
  match model_outputs with
  | [] => "Error: All models failed to process the files"
  | [p] => p.2
  | _ => judge model_outputs

/-- Embedding of the aggregation tail of `ReorderService.reorder_csv_files`:
an empty mapping raises `ReorderServiceError` (modelled as `.error`), a
one-entry mapping is returned with its model name, otherwise the judge
(`_select_best_reordering` in the source) names the winner, and
`model_outputs[best_model]` is looked up (a `KeyError` would escape if the
judge named an unknown model). -/
def reorder_csv_files (deployments : List String)
    (results : List (Except String String))
    (judge : List (String × String) → String) :
    Except String (String × String) :=
  let model_outputs := collect_successful_outputs deployments results
  match model_outputs with
  | [] => .error "All models failed to reorder the files"
  | [p] => .ok (p.2, p.1)
  | _ =>
    let best_model := judge model_outputs
    match model_outputs.find? (fun p => p.1 == best_model) with
    | some p => .ok (p.2, best_model)
    | none => .error "KeyError"

/-!
### Resource lifecycle manager (`BaseAgentService._cleanup_agent_resources`)

Deletion calls against the remote service may themselves fail; the
environment says which ones do.  Each guarded helper
(`_cleanup_thread`, `_cleanup_files`, `_cleanup_agent`, and the local
`cleanup_temp_files`) returns the list of deletions it attempted together
with its exception outcome (`.ok` = returned normally); the composite
sequences them with exception-propagating semantics, so that the theorems
show no exception ever escapes and no failure suppresses a later attempt.
-/

/-- One attempted deletion, the observable trace element. -/
inductive DeleteAction where
  | thread (id : String)
  | file (id : String)
  | agent (id : String)
  | tmp_file (path : String)
deriving DecidableEq, Repr

/-- Which deletions fail, and which local temp paths exist. -/
structure CleanupEnv where
  thread_delete_fails : String → Bool
  file_delete_fails : String → Bool
  agent_delete_fails : String → Bool
  tmp_exists : String → Bool
  tmp_remove_fails : String → Bool

/-- A primitive remote/local delete call: raises iff the environment says
this deletion fails. -/
def try_delete (fails : Bool) : Except String Unit :=
  if fails then .error "delete failed" else .ok ()

/-- The `try: delete(...) except: log` pattern shared by `_cleanup_thread`,
`_cleanup_files`, `_cleanup_agent` and `cleanup_temp_files`: the deletion is
attempted, a raised exception is logged and swallowed. -/
def guarded_delete (fails : Bool) : Except String Unit :=
  match try_delete fails with
  | .ok u => .ok u
  | .error _ => .ok ()

/-- Embedding of `BaseAgentService._cleanup_thread`. -/
def cleanup_thread (env : CleanupEnv) (thread_id : String) :
    List DeleteAction × Except String Unit :=
  ([DeleteAction.thread thread_id],
    guarded_delete (env.thread_delete_fails thread_id))

/-- Embedding of `BaseAgentService._cleanup_files`: each file's delete call
is attempted inside its own `try`; exceptions are logged and swallowed, the
loop continues. -/
def cleanup_files (env : CleanupEnv) (file_ids : List String) :
    List DeleteAction × Except String Unit :=
  (file_ids.map DeleteAction.file,
    file_ids.foldl
      (fun _ fid => guarded_delete (env.file_delete_fails fid))
      (Except.ok ()))

/-- Embedding of `BaseAgentService._cleanup_agent`. -/
def cleanup_agent (env : CleanupEnv) (agent_id : String) :
    List DeleteAction × Except String Unit :=
  ([DeleteAction.agent agent_id],
    guarded_delete (env.agent_delete_fails agent_id))

/-- Embedding of `BaseAgentService._cleanup_agent_resources`: after the
`agents_client` guard, delete the thread (if truthy), then the files (if the
list is non-empty), then the agent (if truthy), each step's exception — were
one to escape its guard — aborting the remaining steps exactly as an
uncaught Python exception would. -/
def cleanup_agent_resources (env : CleanupEnv) (has_client : Bool)
    (thread_id : Option String) (agent_id : Option String)
    (file_ids : List String) : List DeleteAction × Except String Unit :=
  if has_client = false then
    ([], .ok ())
  else
    let s1 :=
      match thread_id with
      | some t => if t ≠ "" then cleanup_thread env t else ([], .ok ())
      | none => ([], .ok ())
    match s1.2 with
    | .error e => (s1.1, .error e)
    | .ok _ =>
      let s2 := if file_ids ≠ [] then cleanup_files env file_ids else ([], .ok ())
      match s2.2 with
      | .error e => (s1.1 ++ s2.1, .error e)
      | .ok _ =>
        let s3 :=
          match agent_id with
          | some a => if a ≠ "" then cleanup_agent env a else ([], .ok ())
          | none => ([], .ok ())
        (s1.1 ++ s2.1 ++ s3.1, s3.2)

/-- Embedding of `file_utils.cleanup_temp_files`: for each path, if it
exists attempt `os.remove` inside `try`, logging and swallowing any
exception. -/
def cleanup_temp_files (env : CleanupEnv) (file_paths : List String) :
    List DeleteAction × Except String Unit :=
  ((file_paths.filter (fun p => env.tmp_exists p)).map DeleteAction.tmp_file,
    file_paths.foldl
      (fun _ p =>
        if env.tmp_exists p then guarded_delete (env.tmp_remove_fails p)
        else Except.ok ())
      (Except.ok ()))

/-- Embedding of `BaseAgentTaskContext` / `AgentContext`: the per-invocation
mutable record of one task execution. -/
structure AgentContext where
  model_name : String
  file_ids : List String
  agent_id : Option String
  thread_id : Option String
  tmp_files : List String
deriving DecidableEq, Repr

/-- Embedding of `CSVComparisonAgentService._cleanup_agent_resources`
(context overload): run the base cleanup on the context's fields, then
delete the local temp files.  The context is returned as the Python method
leaves it — no field is assigned anywhere in the method or its callees. -/
def cleanup_agent_resources_ctx (env : CleanupEnv) (has_client : Bool)
    (ctx : AgentContext) :
    List DeleteAction × AgentContext × Except String Unit :=
  let base := cleanup_agent_resources env has_client ctx.thread_id
    ctx.agent_id ctx.file_ids
  match base.2 with
  | .error e => (base.1, ctx, .error e)
  | .ok _ =>
    let tmp := cleanup_temp_files env ctx.tmp_files
    (base.1 ++ tmp.1, ctx, tmp.2)

/-- The deletion trace of one full base release, in source order
(thread, then files, then agent, honoring the Python truthiness guards on
`thread_id`, `file_ids` and `agent_id`). -/
def expected_cleanup_trace (thread_id agent_id : Option String)
    (file_ids : List String) : List DeleteAction :=
  (match thread_id with
    | some t => if t ≠ "" then [DeleteAction.thread t] else []
    | none => [])
  ++ file_ids.map DeleteAction.file
  ++ (match agent_id with
      | some a => if a ≠ "" then [DeleteAction.agent a] else []
      | none => [])

/-- Concrete environment for exercising a double release: every deletion
succeeds and every temp path exists. -/
def c6_env : CleanupEnv :=
  ⟨fun _ => false, fun _ => false, fun _ => false, fun _ => true,
    fun _ => false⟩

/-- Concrete context holding one of each resource, as left at the end of a
successful task body. -/
def c6_ctx : AgentContext :=
  ⟨"m1", ["f1"], some "a1", some "t1", ["/tmp/x.csv"]⟩

/-- The arbiter outcome counts as invalid when the call raised, the
response text is not an `int`, or the parsed ordinal matches no candidate
(`selected_num in numbered_outputs` is false). -/
def arbiter_selection_invalid (outputs : List (String × String))
    (arbiter : Except String String) : Prop :=
  match get_selection_number arbiter with
  | .error _ => True
  | .ok n =>
    (prepare_numbered_outputs outputs).find?
      (fun t => ((t.1 : Int) == n)) = none

/-!
### Temp-file staging paths (`_prepare_comparison_files`,
`_prepare_reorder_files`)
-/

/-- Comparison staging path for the Python-generated CSV. -/
def tmp_python_path (model_name : String) : String :=
  "/tmp/ported_python_output_" ++ sanitize_model_name model_name ++ ".csv"

/-- Comparison staging path for the legacy CSV. -/
def tmp_legacy_path (model_name : String) : String :=
  "/tmp/correct_legacy_etl_output_" ++ sanitize_model_name model_name ++ ".csv"

/-- Reorder staging path for the source CSV (`model_index` is 1-based). -/
def tmp_source_path (model_index : Nat) : String :=
  "/tmp/source_data_" ++ Nat.repr model_index ++ ".csv"

/-- Reorder staging path for the legacy CSV. -/
def tmp_reorder_legacy_path (model_index : Nat) : String :=
  "/tmp/legacy_etl_output_" ++ Nat.repr model_index ++ ".csv"

/-!
### Result extraction (`_extract_csv_results`, `_download_and_read_csv`)

Thread messages carry file-path attachments (field `file_path_annotations`
in the source, renamed here); the filesystem/remote oracle `fs` maps the
local save name to the file content, or to `none` when any step of
save/open/read raises.
-/

/-- One element of a message's `file_path_annotations` list (source field
names: `file_path.file_id` and `text`). -/
structure FileAttachment where
  file_id : String
  text : String

/-- One thread message, reduced to the field the extraction reads. -/
structure ThreadMessage where
  attachments : List FileAttachment

/-- Model of Python `str.title()` for the ASCII names at hand: an alphabetic
character is upper-cased after a non-alphabetic one and lower-cased after an
alphabetic one. -/
def py_title (s : String) : String :=
  String.mk
    ((s.data.foldl
      (fun (p : List Char × Bool) c =>
        if c.isAlpha then
          ((if p.2 then c.toLower else c.toUpper) :: p.1, true)
        else (c :: p.1, false))
      ([], false)).1.reverse)

/-- Embedding of `CSVComparisonAgentService._format_csv_name`:
`text.split("/")[-1].replace(".csv", "")`, then underscores to spaces and
title-case. -/
def format_csv_name (text : String) : String :=
  let name := ((text.splitOn "/").getLastD "").replace ".csv" ""
  py_title ((name.replace "_" " "))

/-- Embedding of `CSVComparisonAgentService._download_and_read_csv`: save
the remote file under a per-model local name and read it; any exception
yields `None`. -/
def download_and_read_csv (fs : String → Option String) (file_id : String)
    (model_name : String) : Option String :=
  fs (file_id ++ "_csv_" ++ sanitize_model_name model_name)

/-- Inner loop of `CSVComparisonAgentService._extract_csv_results` (the
`for annotation in msg.file_path_annotations` body): download each
attachment and append a labeled part for every truthy content (Python
`if csv_content:` — non-`None` and non-empty). -/
def extract_message_parts (fs : String → Option String) (model_name : String)
    (result_parts : List String) (msg : ThreadMessage) : List String :=
  msg.attachments.foldl
    (fun acc att =>
      match download_and_read_csv fs att.file_id model_name with
      | some csv_content =>
        if csv_content ≠ "" then
          acc ++ ["# " ++ format_csv_name att.text ++ "\n"
            ++ csv_content ++ "\n\n"]
        else acc
      | none => acc)
    result_parts

/-- Embedding of `CSVComparisonAgentService._extract_csv_results`: walk
every message's attachments in order and join the collected parts. -/
def extract_csv_results (fs : String → Option String)
    (messages : List ThreadMessage) (model_name : String) : String :=
  String.join (messages.foldl (extract_message_parts fs model_name) [])

/-!
### Decimal rendering

`tmp_source_path` and `tmp_reorder_legacy_path` embed the 1-based model
index via `Nat.repr` (the f-string interpolation in the source); the
following lemmas establish that `Nat.repr` is injective, so distinct
indices give distinct staged paths.
-/

theorem toDigitsCore_append (b fuel : Nat) :
    ∀ (n : Nat) (ds : List Char),
      Nat.toDigitsCore b fuel n ds = Nat.toDigitsCore b fuel n [] ++ ds := by
  induction fuel with
  | zero => intro n ds; simp [Nat.toDigitsCore]
  | succ f ih =>
    intro n ds
    simp only [Nat.toDigitsCore]
    split
    · simp
    · rw [ih (n / b) (Nat.digitChar (n % b) :: ds),
        ih (n / b) [Nat.digitChar (n % b)]]
      simp

theorem toDigitsCore_fuel (b : Nat) (hb : 2 ≤ b) :
    ∀ n fuel₁ fuel₂ : Nat, n < fuel₁ → n < fuel₂ →
      Nat.toDigitsCore b fuel₁ n [] = Nat.toDigitsCore b fuel₂ n [] := by
  intro n
  induction n using Nat.strong_induction_on with
  | _ n ih =>
    intro fuel₁ fuel₂ h₁ h₂
    cases fuel₁ with
    | zero => omega
    | succ f₁ =>
      cases fuel₂ with
      | zero => omega
      | succ f₂ =>
        simp only [Nat.toDigitsCore]
        by_cases hnb : n / b = 0
        · simp [hnb]
        · simp only [hnb, if_false]
          have hbn : b ≤ n := by
            by_contra hlt
            exact hnb (Nat.div_eq_of_lt (by omega))
          have hdiv : n / b < n := Nat.div_lt_self (by omega) (by omega)
          rw [toDigitsCore_append b f₁, toDigitsCore_append b f₂,
            ih (n / b) hdiv f₁ f₂ (by omega) (by omega)]

theorem toDigits_eq_append (b : Nat) (hb : 2 ≤ b) (n : Nat) :
    Nat.toDigits b n =
      (if n < b then [] else Nat.toDigits b (n / b))
        ++ [Nat.digitChar (n % b)] := by
  by_cases hnb : n / b = 0
  · have hlt : n < b := by
      by_contra hge
      have := Nat.le_div_iff_mul_le (by omega : 0 < b) |>.2 (by omega : 1 * b ≤ n)
      omega
    simp only [hlt, if_true, List.nil_append]
    simp only [Nat.toDigits, Nat.toDigitsCore, hnb, if_true]
  · have hbn : b ≤ n := by
      by_contra hlt
      exact hnb (Nat.div_eq_of_lt (by omega))
    have hdiv : n / b < n := Nat.div_lt_self (by omega) (by omega)
    have hnlt : ¬ n < b := by omega
    simp only [hnlt, if_false]
    conv_lhs => simp only [Nat.toDigits, Nat.toDigitsCore]
    simp only [hnb, if_false]
    rw [toDigitsCore_append b n]
    congr 1
    simp only [Nat.toDigits]
    exact toDigitsCore_fuel b hb (n / b) n (n / b + 1) (by omega) (by omega)

theorem toDigits_ne_nil (b : Nat) (hb : 2 ≤ b) (n : Nat) :
    Nat.toDigits b n ≠ [] := by
  rw [toDigits_eq_append b hb n]
  simp

theorem digitChar_inj_of_lt (x y : Nat) (hx : x < 10) (hy : y < 10)
    (h : Nat.digitChar x = Nat.digitChar y) : x = y := by
  interval_cases x <;> interval_cases y <;> simp_all [Nat.digitChar]

theorem toDigits_ten_injective :
    ∀ m n : Nat, Nat.toDigits 10 m = Nat.toDigits 10 n → m = n := by
  intro m
  induction m using Nat.strong_induction_on with
  | _ m ih =>
    intro n h
    rw [toDigits_eq_append 10 (by omega) m,
      toDigits_eq_append 10 (by omega) n] at h
    by_cases hm : m < 10 <;> by_cases hn : n < 10
    · simp only [hm, hn, if_true, List.nil_append] at h
      have h1 : Nat.digitChar (m % 10) = Nat.digitChar (n % 10) := by
        simpa using h
      have := digitChar_inj_of_lt (m % 10) (n % 10) (by omega) (by omega) h1
      omega
    · exfalso
      simp only [hm, hn, if_true, if_false, List.nil_append] at h
      have hlen := congrArg List.length h
      rw [List.length_append] at hlen
      simp only [List.length_singleton] at hlen
      exact toDigits_ne_nil 10 (by omega) (n / 10)
        (List.length_eq_zero.1 (by omega))
    · exfalso
      simp only [hm, hn, if_true, if_false, List.nil_append] at h
      have hlen := congrArg List.length h
      rw [List.length_append] at hlen
      simp only [List.length_singleton] at hlen
      exact toDigits_ne_nil 10 (by omega) (m / 10)
        (List.length_eq_zero.1 (by omega))
    · simp only [hm, hn, if_false] at h
      obtain ⟨h1, h2⟩ := List.append_inj' h (by simp)
      have hmod : m % 10 = n % 10 := by
        have : Nat.digitChar (m % 10) = Nat.digitChar (n % 10) := by
          simpa using h2
        exact digitChar_inj_of_lt _ _ (by omega) (by omega) this
      have hdivlt : m / 10 < m := Nat.div_lt_self (by omega) (by omega)
      have hdiv : m / 10 = n / 10 := ih (m / 10) hdivlt (n / 10) h1
      omega

theorem nat_repr_injective (m n : Nat) (h : Nat.repr m = Nat.repr n) :
    m = n := by
  apply toDigits_ten_injective
  rw [show Nat.repr m = (Nat.toDigits 10 m).asString from rfl,
    show Nat.repr n = (Nat.toDigits 10 n).asString from rfl] at h
  have := congrArg String.data h
  simpa [List.asString] using this

/-!
### String path distinctness helpers
-/

theorem append_affix_inj (p suf s t : String)
    (h : p ++ s ++ suf = p ++ t ++ suf) : s = t := by
  have hd := congrArg String.data h
  simp only [String.data_append] at hd
  exact String.ext (List.append_cancel_left (List.append_cancel_right hd))

theorem append_ne_of_take_ne (k : Nat) (p₁ p₂ s t : String)
    (hk₁ : k ≤ p₁.data.length) (hk₂ : k ≤ p₂.data.length)
    (hne : p₁.data.take k ≠ p₂.data.take k) :
    p₁ ++ s ≠ p₂ ++ t := by
  intro he
  apply hne
  have hd := congrArg String.data he
  simp only [String.data_append] at hd
  calc p₁.data.take k
      = (p₁.data ++ s.data).take k := (List.take_append_of_le_length hk₁).symm
    _ = (p₂.data ++ t.data).take k := by rw [hd]
    _ = p₂.data.take k := List.take_append_of_le_length hk₂

/-- Embedding of the `try`/`except` wrapper of
`CSVComparisonAgentService._run_comparison_sync`: the body's outcome is
either the string `_execute_agent_task` returned or a raised exception,
which the handler converts into a descriptive (non-`"Error:"`-prefixed)
string. -/
def run_comparison_sync_result (model_name : String)
    (body : Except String String) : String :=
  match body with
  | .ok r => r
  | .error e =>
    "An error occurred during agent processing with model "
      ++ model_name ++ ": " ++ e

/-!
### Protocol loop lemmas
-/

theorem execute_agent_task_go_runs_le (env : RunEnv) (model_name : String) :
    ∀ fuel attempt,
      (execute_agent_task_go env model_name attempt fuel).2.1 ≤ fuel := by
  intro fuel
  induction fuel with
  | zero => intro attempt; simp [execute_agent_task_go]
  | succ f ih =>
    intro attempt
    simp only [execute_agent_task_go]
    split
    · simp
    · split
      · simp
      · split
        · have := ih (attempt + 1)
          dsimp only
          omega
        · simp

theorem execute_agent_task_go_nudges (env : RunEnv) (model_name : String) :
    ∀ fuel attempt, 1 ≤ fuel → MAX_ATTEMPTS < attempt + fuel →
      (execute_agent_task_go env model_name attempt fuel).2.2 + 1
        = (execute_agent_task_go env model_name attempt fuel).2.1 := by
  intro fuel
  induction fuel with
  | zero =>
    intro attempt h1 _
    omega
  | succ f ih =>
    intro attempt _ h
    simp only [execute_agent_task_go]
    split
    · simp
    · split
      · simp
      · split
        · rename_i hlt
          have hf1 : 1 ≤ f := by
            simp only [MAX_ATTEMPTS] at hlt h ⊢
            omega
          have := ih (attempt + 1) hf1 (by omega)
          dsimp only
          omega
        · simp

theorem execute_agent_task_go_exhausted_iff (env : RunEnv)
    (model_name : String) :
    ∀ fuel attempt, attempt + fuel = MAX_ATTEMPTS + 1 →
      ((execute_agent_task_go env model_name attempt fuel).1
          = .exhausted (max_attempts_msg model_name)
        ↔ ∀ i, attempt ≤ i → i ≤ MAX_ATTEMPTS →
            env.failed i = false ∧ env.marker_present i = false) := by
  intro fuel
  induction fuel with
  | zero =>
    intro attempt h
    simp only [execute_agent_task_go]
    constructor
    · intro _ i hi hi'
      omega
    · intro _
      trivial
  | succ f ih =>
    intro attempt h
    simp only [execute_agent_task_go]
    split
    · rename_i hfail
      constructor
      · intro hcontra
        exact absurd hcontra (by simp)
      · intro hall
        have := (hall attempt (by omega) (by omega)).1
        rw [this] at hfail
        exact absurd hfail (by simp)
    · split
      · rename_i hfail hmark
        constructor
        · intro hcontra
          exact absurd hcontra (by simp)
        · intro hall
          have := (hall attempt (by omega) (by omega)).2
          rw [this] at hmark
          exact absurd hmark (by simp)
      · split
        · rename_i hfail hmark hlt
          rw [show (((execute_agent_task_go env model_name (attempt + 1) f).1,
              (execute_agent_task_go env model_name (attempt + 1) f).2.1 + 1,
              (execute_agent_task_go env model_name (attempt + 1) f).2.2 + 1) :
              RunnerResult × Nat × Nat).1
            = (execute_agent_task_go env model_name (attempt + 1) f).1 from rfl]
          rw [ih (attempt + 1) (by omega)]
          constructor
          · intro hall i hi hi'
            rcases Nat.eq_or_lt_of_le hi with heq | hgt
            · subst heq
              exact ⟨Bool.eq_false_iff.2 (by simpa using hfail),
                Bool.eq_false_iff.2 (by simpa using hmark)⟩
            · exact hall i (by omega) hi'
          · intro hall i hi hi'
            exact hall i (by omega) hi'
        · rename_i hfail hmark hge
          constructor
          · intro _ i hi hi'
            have : i = attempt := by omega
            subst this
            exact ⟨Bool.eq_false_iff.2 (by simpa using hfail),
              Bool.eq_false_iff.2 (by simpa using hmark)⟩
          · intro _
            trivial

theorem execute_agent_task_go_first_failure (env : RunEnv)
    (model_name : String) :
    ∀ fuel attempt k, attempt + fuel = MAX_ATTEMPTS + 1 →
      attempt ≤ k → k ≤ MAX_ATTEMPTS → env.failed k = true →
      (∀ j, attempt ≤ j → j < k →
        env.failed j = false ∧ env.marker_present j = false) →
      execute_agent_task_go env model_name attempt fuel
        = (.run_failed ("Run failed: " ++ env.last_error k),
            k - attempt + 1, k - attempt) := by
  intro fuel
  induction fuel with
  | zero =>
    intro attempt k h hak hk _ _
    omega
  | succ f ih =>
    intro attempt k h hak hk hfailk hbefore
    rcases Nat.eq_or_lt_of_le hak with heq | hgt
    · subst heq
      simp only [execute_agent_task_go, hfailk, if_true]
      simp
    · have hthis := hbefore attempt (by omega) (by omega)
      simp only [execute_agent_task_go, hthis.1, hthis.2, if_false,
        Bool.false_eq_true]
      have hlt : attempt < MAX_ATTEMPTS := by omega
      simp only [hlt, if_true]
      rw [ih (attempt + 1) k (by omega) (by omega) hk hfailk
        (fun j hj hj' => hbefore j (by omega) hj')]
      have h1 : k - (attempt + 1) + 1 = k - attempt := by omega
      simp [h1]

/-!
### Cleanup lemmas
-/

theorem guarded_delete_ok (b : Bool) : guarded_delete b = Except.ok () := by
  cases b <;> rfl

theorem foldl_guarded_ok (l : List String) (g : String → Except String Unit)
    (hg : ∀ x, g x = Except.ok ()) :
    ∀ acc, acc = Except.ok () →
      l.foldl (fun _ x => g x) acc = Except.ok () := by
  induction l with
  | nil =>
    intro acc h
    simpa using h
  | cons x t ih =>
    intro acc _
    simp only [List.foldl_cons]
    exact ih _ (hg x)

theorem cleanup_thread_spec (env : CleanupEnv) (t : String) :
    cleanup_thread env t = ([DeleteAction.thread t], Except.ok ()) := by
  unfold cleanup_thread
  rw [guarded_delete_ok]

theorem cleanup_agent_spec (env : CleanupEnv) (a : String) :
    cleanup_agent env a = ([DeleteAction.agent a], Except.ok ()) := by
  unfold cleanup_agent
  rw [guarded_delete_ok]

theorem cleanup_files_spec (env : CleanupEnv) (l : List String) :
    cleanup_files env l = (l.map DeleteAction.file, Except.ok ()) := by
  unfold cleanup_files
  rw [foldl_guarded_ok l (fun fid => guarded_delete (env.file_delete_fails fid))
    (fun x => guarded_delete_ok _) _ rfl]

theorem cleanup_temp_files_spec (env : CleanupEnv) (l : List String) :
    cleanup_temp_files env l
      = ((l.filter (fun p => env.tmp_exists p)).map DeleteAction.tmp_file,
          Except.ok ()) := by
  unfold cleanup_temp_files
  rw [foldl_guarded_ok l
    (fun p => if env.tmp_exists p then guarded_delete (env.tmp_remove_fails p)
      else Except.ok ())
    (fun x => by
      by_cases hx : env.tmp_exists x
      · simp [hx, guarded_delete_ok]
      · simp [hx]) _ rfl]

theorem cleanup_agent_resources_spec (env : CleanupEnv)
    (thread_id agent_id : Option String) (file_ids : List String) :
    cleanup_agent_resources env true thread_id agent_id file_ids
      = (expected_cleanup_trace thread_id agent_id file_ids, Except.ok ()) := by
  unfold cleanup_agent_resources expected_cleanup_trace
  simp only [cleanup_thread_spec, cleanup_agent_spec, cleanup_files_spec]
  rcases thread_id with _ | t <;> rcases agent_id with _ | a
  · by_cases hf : file_ids = [] <;> simp [hf]
  · by_cases hf : file_ids = [] <;> by_cases ha : a = "" <;> simp [hf, ha]
  · by_cases hf : file_ids = [] <;> by_cases ht : t = "" <;> simp [hf, ht]
  · by_cases hf : file_ids = [] <;> by_cases ht : t = "" <;>
      by_cases ha : a = "" <;> simp [hf, ht, ha]

theorem cleanup_agent_resources_ctx_spec (env : CleanupEnv)
    (ctx : AgentContext) :
    cleanup_agent_resources_ctx env true ctx
      = (expected_cleanup_trace ctx.thread_id ctx.agent_id ctx.file_ids
          ++ (ctx.tmp_files.filter (fun p => env.tmp_exists p)).map
              DeleteAction.tmp_file,
          ctx, Except.ok ()) := by
  unfold cleanup_agent_resources_ctx
  rw [cleanup_agent_resources_spec, cleanup_temp_files_spec]

/-!
### Extraction lemmas
-/

theorem extract_parts_foldl_skip (fs : String → Option String)
    (model_name : String) :
    ∀ l : List FileAttachment,
      (∀ att ∈ l, download_and_read_csv fs att.file_id model_name = none) →
      ∀ acc : List String,
        l.foldl
          (fun acc att =>
            match download_and_read_csv fs att.file_id model_name with
            | some csv_content =>
              if csv_content ≠ "" then
                acc ++ ["# " ++ format_csv_name att.text ++ "\n"
                  ++ csv_content ++ "\n\n"]
              else acc
            | none => acc)
          acc = acc := by
  intro l
  induction l with
  | nil => intro _ acc; rfl
  | cons att rest ih =>
    intro hall acc
    simp only [List.foldl_cons]
    rw [hall att (by simp)]
    exact ih (fun a ha => hall a (by simp [ha])) acc

theorem extract_message_parts_skip (fs : String → Option String)
    (model_name : String) (msg : ThreadMessage)
    (h : ∀ att ∈ msg.attachments,
      download_and_read_csv fs att.file_id model_name = none) :
    ∀ acc, extract_message_parts fs model_name acc msg = acc := by
  intro acc
  exact extract_parts_foldl_skip fs model_name msg.attachments h acc

theorem extract_csv_results_empty (fs : String → Option String)
    (messages : List ThreadMessage) (model_name : String)
    (h : ∀ msg ∈ messages, ∀ att ∈ msg.attachments,
      download_and_read_csv fs att.file_id model_name = none) :
    extract_csv_results fs messages model_name = "" := by
  unfold extract_csv_results
  have hfold : ∀ (msgs : List ThreadMessage), (∀ msg ∈ msgs, ∀ att ∈ msg.attachments,
      download_and_read_csv fs att.file_id model_name = none) →
      ∀ acc, msgs.foldl (extract_message_parts fs model_name) acc = acc := by
    intro msgs
    induction msgs with
    | nil => intro _ acc; rfl
    | cons m rest ih =>
      intro hall acc
      simp only [List.foldl_cons,
        extract_message_parts_skip fs model_name m (hall m (by simp))]
      exact ih (fun mm hmm => hall mm (by simp [hmm])) acc
  rw [hfold messages h []]
  rfl

/-!
### Claim theorems
-/

/-- C1: the claim asserts that every runner failure (upload failure, remote
run status "failed", retry exhaustion, caught exception) is excluded from
the aggregate mapping.  The code violates this: the comparison runner's
failure strings — "Run failed: ...", "Maximum attempts reached ...", and the
exception handler's "An error occurred during agent processing ..." — do not
start with "Error:", which is the only prefix `_collect_successful_outputs`
filters on, so each of them is collected into the success mapping.  This
theorem evaluates the embedded code on the three failing inputs. -/
theorem C1_runner_failure_not_excluded :
    execute_agent_task_str
        ⟨fun _ => true, fun _ => "boom", fun _ => false, ""⟩ "m1"
      = "Run failed: boom" ∧
    pyStartsWith "Run failed: boom" "Error:" = false ∧
    collect_successful_outputs ["m1"]
        [Except.ok (execute_agent_task_str
          ⟨fun _ => true, fun _ => "boom", fun _ => false, ""⟩ "m1")]
      = [("m1", "Run failed: boom")] ∧
    collect_successful_outputs ["m1"] [Except.ok (max_attempts_msg "m1")]
      = [("m1", max_attempts_msg "m1")] ∧
    collect_successful_outputs ["m1"]
        [Except.ok (run_comparison_sync_result "m1"
          (Except.error "upload failed"))]
      = [("m1",
          "An error occurred during agent processing with model m1: upload failed")] :=
  ⟨rfl, rfl, rfl, rfl, rfl⟩

/-- C2: whenever the success mapping has exactly one entry, the
orchestrator returns that entry's value verbatim and the judge is never
invoked (the result does not depend on the judge function); likewise the
one-entry early return of `select_best_csv_output` never consults the
arbiter, and the reorder fan-out returns the single result with its model
name. -/
theorem C2_single_result_verbatim (deployments : List String)
    (results : List (Except String String)) (m v : String)
    (h : collect_successful_outputs deployments results = [(m, v)]) :
    (∀ judge, run_parallel_comparisons deployments results judge = v) ∧
    (∀ arbiter, select_best_csv_output [(m, v)] arbiter = Except.ok v) ∧
    (∀ judge, reorder_csv_files deployments results judge
      = Except.ok (v, m)) := by
  refine ⟨fun judge => ?_, fun arbiter => ?_, fun judge => ?_⟩
  · simp only [run_parallel_comparisons, h]
  · simp [select_best_csv_output, first_value]
  · simp only [reorder_csv_files, h]

/-- C2 witness: a two-model fan-out in which only the second model
succeeds returns its output verbatim, for an arbitrary judge. -/
theorem C2_single_result_verbatim_witness :
    run_parallel_comparisons ["a", "b"] [Except.error "x", Except.ok "out"]
        (fun _ => "JUDGE") = "out" ∧
    select_best_csv_output [("b", "out")] (Except.error "down")
      = Except.ok "out" ∧
    reorder_csv_files ["a", "b"] [Except.error "x", Except.ok "out"]
        (fun _ => "JUDGE") = Except.ok ("out", "b") := by
  have h := C2_single_result_verbatim ["a", "b"]
    [Except.error "x", Except.ok "out"] "b" "out" (by rfl)
  exact ⟨h.1 _, h.2.1 _, h.2.2 _⟩

/-- C3: the completion-continuation protocol invokes the remote run at most
`MAX_ATTEMPTS = 3` times; it ends in the retry-exhaustion failure exactly
when, within the bound, no run fails and the completion sentinel never
appears; a continuation nudge is posted exactly once between consecutive
runs (so only while attempts remain, at most `MAX_ATTEMPTS - 1` nudges);
the reorder variant performs exactly one run and posts no continuation. -/
theorem C3_completion_protocol_bound (env : RunEnv)
    (model_name processed : String) :
    MAX_ATTEMPTS = 3 ∧
    (execute_agent_task env model_name).2.1 ≤ MAX_ATTEMPTS ∧
    ((execute_agent_task env model_name).1
        = .exhausted (max_attempts_msg model_name)
      ↔ ∀ i, 1 ≤ i → i ≤ MAX_ATTEMPTS →
          env.failed i = false ∧ env.marker_present i = false) ∧
    (execute_agent_task env model_name).2.2 + 1
      = (execute_agent_task env model_name).2.1 ∧
    (execute_agent_task env model_name).2.2 + 1 ≤ MAX_ATTEMPTS ∧
    (execute_reorder_task env processed).2.1 = 1 ∧
    (execute_reorder_task env processed).2.2 = 0 := by
  have hruns := execute_agent_task_go_runs_le env model_name MAX_ATTEMPTS 1
  have hnudges := execute_agent_task_go_nudges env model_name MAX_ATTEMPTS 1
    (by decide) (by decide)
  refine ⟨rfl, hruns, ?_, hnudges, by
      simp only [execute_agent_task] at hnudges hruns ⊢
      omega, ?_, ?_⟩
  · exact execute_agent_task_go_exhausted_iff env model_name MAX_ATTEMPTS 1
      (by decide)
  · unfold execute_reorder_task
    split <;> rfl
  · unfold execute_reorder_task
    split <;> rfl

/-- C3 witness: a run that never fails and never produces the sentinel is
invoked exactly 3 times, posts 2 nudges, and ends exhausted. -/
theorem C3_completion_protocol_bound_witness :
    (execute_agent_task
        ⟨fun _ => false, fun _ => "", fun _ => false, "X"⟩ "m").1
      = .exhausted (max_attempts_msg "m") ∧
    (execute_agent_task
        ⟨fun _ => false, fun _ => "", fun _ => false, "X"⟩ "m").2.1
      ≤ MAX_ATTEMPTS := by
  constructor
  · exact (C3_completion_protocol_bound
      ⟨fun _ => false, fun _ => "", fun _ => false, "X"⟩ "m" "p").2.2.1.mpr
      (fun i _ _ => ⟨rfl, rfl⟩)
  · exact (C3_completion_protocol_bound
      ⟨fun _ => false, fun _ => "", fun _ => false, "X"⟩ "m" "p").2.1

/-- C7: if every model fails (empty success mapping), the comparison
orchestrator returns the distinguished all-models-failed string (which is
not the empty string a successful-but-empty run would produce), and the
reorder variant raises `ReorderServiceError`, which no successful return
can equal. -/
theorem C7_aggregate_failure (deployments : List String)
    (results : List (Except String String))
    (judge judge' : List (String × String) → String)
    (h : collect_successful_outputs deployments results = []) :
    run_parallel_comparisons deployments results judge
      = "Error: All models failed to process the files" ∧
    reorder_csv_files deployments results judge'
      = Except.error "All models failed to reorder the files" ∧
    ("Error: All models failed to process the files" : String) ≠ "" ∧
    (∀ v : String × String,
      (Except.error "All models failed to reorder the files"
        : Except String (String × String)) ≠ Except.ok v) := by
  refine ⟨?_, ?_, by decide, fun v hv => by cases hv⟩
  · simp only [run_parallel_comparisons, h]
  · simp only [reorder_csv_files, h]

/-- C7 witness: both models fail (one raises, one returns an
`"Error:"`-prefixed string) and the aggregate failure is signalled. -/
theorem C7_aggregate_failure_witness :
    run_parallel_comparisons ["a", "b"]
        [Except.error "x", Except.ok "Error: boom"] (fun _ => "JUDGE")
      = "Error: All models failed to process the files" ∧
    reorder_csv_files ["a", "b"]
        [Except.error "x", Except.ok "Error: boom"] (fun _ => "JUDGE")
      = Except.error "All models failed to reorder the files" := by
  have h := C7_aggregate_failure ["a", "b"]
    [Except.error "x", Except.ok "Error: boom"]
    (fun _ => "JUDGE") (fun _ => "JUDGE") (by rfl)
  exact ⟨h.1, h.2.1⟩

/-- C8: if the `k`-th remote run (the first eventful one) completes with
status "failed", the runner returns the failure string immediately from
that attempt: exactly `k` runs are invoked and only the `k - 1` nudges of
the earlier attempts were posted — none after the failure; the reorder
variant likewise returns its failure string from its single attempt. -/
theorem C8_run_failed_immediate (env : RunEnv)
    (model_name processed : String) (k : Nat)
    (hk1 : 1 ≤ k) (hk3 : k ≤ MAX_ATTEMPTS) (hfail : env.failed k = true)
    (hbefore : ∀ j, 1 ≤ j → j < k →
      env.failed j = false ∧ env.marker_present j = false) :
    execute_agent_task env model_name
      = (.run_failed ("Run failed: " ++ env.last_error k), k, k - 1) ∧
    (env.failed 1 = true →
      execute_reorder_task env processed
        = ("Error: Run failed: " ++ env.last_error 1, 1, 0)) := by
  constructor
  · have hgo := execute_agent_task_go_first_failure env model_name
      MAX_ATTEMPTS 1 k (by decide) hk1 hk3 hfail hbefore
    have hk : k - 1 + 1 = k := by omega
    rw [execute_agent_task, hgo, hk]
  · intro h1
    simp [execute_reorder_task, h1]

/-- C4: with two or more candidates, whenever the arbiter call raises or
its parsed selection matches no known ordinal, `select_best_csv_output`
returns the first entry in the mapping's iteration order; and for every
arbiter outcome whatsoever it returns some candidate normally — no
exception propagates to the caller. -/
theorem C4_arbiter_fallback (m v : String) (rest : List (String × String))
    (arbiter : Except String String) (hrest : rest ≠ []) :
    (arbiter_selection_invalid ((m, v) :: rest) arbiter →
      select_best_csv_output ((m, v) :: rest) arbiter = Except.ok v) ∧
    (∃ w, select_best_csv_output ((m, v) :: rest) arbiter
      = Except.ok w) := by
  have hlen : ¬ ((m, v) :: rest).length = 1 := by
    cases rest with
    | nil => exact absurd rfl hrest
    | cons a l => simp
  constructor
  · intro hinv
    unfold arbiter_selection_invalid at hinv
    simp only [select_best_csv_output, if_neg hlen]
    rcases harb : get_selection_number arbiter with e | n
    · simp [harb, first_value]
    · simp only [harb] at hinv
      simp only [harb, get_selected_output, hinv, first_value]
  · simp only [select_best_csv_output, if_neg hlen]
    rcases harb : get_selection_number arbiter with e | n
    · exact ⟨v, by simp [harb, first_value]⟩
    · rcases hfind : (prepare_numbered_outputs ((m, v) :: rest)).find?
        (fun t => ((t.1 : Int) == n)) with _ | t
      · exact ⟨v, by simp [harb, get_selected_output, hfind, first_value]⟩
      · exact ⟨t.2.2, by simp [harb, get_selected_output, hfind]⟩

/-- C4 witness: with two candidates, an out-of-range response "7" and a
raised arbiter exception each fall back to the first candidate. -/
theorem C4_arbiter_fallback_witness :
    select_best_csv_output [("a", "va"), ("b", "vb")] (Except.ok "7")
      = Except.ok "va" ∧
    select_best_csv_output [("a", "va"), ("b", "vb")] (Except.error "net")
      = Except.ok "va" := by
  constructor
  · exact (C4_arbiter_fallback "a" "va" [("b", "vb")] (Except.ok "7")
      (by simp)).1 rfl
  · exact (C4_arbiter_fallback "a" "va" [("b", "vb")] (Except.error "net")
      (by simp)).1 trivial

/-- C5: the resource lifecycle release attempts deletions in the order
thread, then files, then agent; each attempt is independently guarded, so
for every pattern of deletion failures the full ordered trace is attempted
and the release returns normally (never raises). -/
theorem C5_cleanup_order_guarded (env : CleanupEnv)
    (thread_id agent_id : Option String) (file_ids : List String) :
    (cleanup_agent_resources env true thread_id agent_id file_ids).2
      = Except.ok () ∧
    (cleanup_agent_resources env true thread_id agent_id file_ids).1
      = expected_cleanup_trace thread_id agent_id file_ids := by
  rw [cleanup_agent_resources_spec]
  exact ⟨rfl, rfl⟩

/-- C6 counterexample: releasing a context does not clear its fields, so a
second release attempts exactly the same non-empty deletion sequence —
refuting the claim that the second invocation re-deletes nothing because
the fields were cleared. -/
theorem C6_second_release_redeletes :
    (cleanup_agent_resources_ctx c6_env true c6_ctx).2.1 = c6_ctx ∧
    (cleanup_agent_resources_ctx c6_env true
        ((cleanup_agent_resources_ctx c6_env true c6_ctx).2.1)).1
      = [DeleteAction.thread "t1", DeleteAction.file "f1",
          DeleteAction.agent "a1", DeleteAction.tmp_file "/tmp/x.csv"] ∧
    (cleanup_agent_resources_ctx c6_env true c6_ctx).1
      = [DeleteAction.thread "t1", DeleteAction.file "f1",
          DeleteAction.agent "a1", DeleteAction.tmp_file "/tmp/x.csv"] :=
  ⟨rfl, rfl, rfl⟩

/-- C6 amended: releasing the same context twice never raises (both
invocations return normally, under any pattern of deletion failures in
either invocation), but the context's fields are not cleared by the first
release, so the second invocation attempts exactly the same guarded
deletions as the first. -/
theorem C6_double_release_no_raise (env env₂ : CleanupEnv)
    (ctx : AgentContext) :
    (cleanup_agent_resources_ctx env true ctx).2.2 = Except.ok () ∧
    (cleanup_agent_resources_ctx env true ctx).2.1 = ctx ∧
    (cleanup_agent_resources_ctx env₂ true
        ((cleanup_agent_resources_ctx env true ctx).2.1)).2.2
      = Except.ok () ∧
    (cleanup_agent_resources_ctx env true
        ((cleanup_agent_resources_ctx env true ctx).2.1)).1
      = (cleanup_agent_resources_ctx env true ctx).1 := by
  have h := cleanup_agent_resources_ctx_spec env ctx
  have hctx : (cleanup_agent_resources_ctx env true ctx).2.1 = ctx := by
    rw [h]
  refine ⟨by rw [h], hctx, ?_, by rw [hctx]⟩
  rw [hctx, cleanup_agent_resources_ctx_spec env₂ ctx]

/-- C9 counterexample: the comparison staging paths are derived from the
model name with `.replace('.', '_')`, which is not injective — the distinct
deployments "gpt-4.1" and "gpt-4_1" collide on both staged paths. -/
theorem C9_sanitized_path_collision :
    ("gpt-4.1" : String) ≠ "gpt-4_1" ∧
    tmp_python_path "gpt-4.1" = tmp_python_path "gpt-4_1" ∧
    tmp_legacy_path "gpt-4.1" = tmp_legacy_path "gpt-4_1" :=
  ⟨by decide, rfl, rfl⟩

/-- C9 amended: the comparison staging paths of two deployments are
distinct whenever their dot-sanitized names differ (rather than for every
pair of distinct names), and the two per-model paths never collide with
each other; the reorder variant's index-based staging paths are
unconditionally collision-free for distinct indices. -/
theorem C9_distinct_staging_paths (m₁ m₂ : String) (i j : Nat)
    (hs : sanitize_model_name m₁ ≠ sanitize_model_name m₂) (hij : i ≠ j) :
    tmp_python_path m₁ ≠ tmp_python_path m₂ ∧
    tmp_legacy_path m₁ ≠ tmp_legacy_path m₂ ∧
    (∀ a b, tmp_python_path a ≠ tmp_legacy_path b) ∧
    tmp_source_path i ≠ tmp_source_path j ∧
    tmp_reorder_legacy_path i ≠ tmp_reorder_legacy_path j ∧
    (∀ a b, tmp_source_path a ≠ tmp_reorder_legacy_path b) := by
  refine ⟨?_, ?_, ?_, ?_, ?_, ?_⟩
  · intro he
    exact hs (append_affix_inj _ ".csv" _ _ he)
  · intro he
    exact hs (append_affix_inj _ ".csv" _ _ he)
  · intro a b he
    refine append_ne_of_take_ne 6 "/tmp/ported_python_output_"
      "/tmp/correct_legacy_etl_output_"
      (sanitize_model_name a ++ ".csv") (sanitize_model_name b ++ ".csv")
      (by decide) (by decide) (by decide) ?_
    rw [← String.append_assoc, ← String.append_assoc]
    exact he
  · intro he
    exact hij (nat_repr_injective i j (append_affix_inj _ ".csv" _ _ he))
  · intro he
    exact hij (nat_repr_injective i j (append_affix_inj _ ".csv" _ _ he))
  · intro a b he
    refine append_ne_of_take_ne 6 "/tmp/source_data_"
      "/tmp/legacy_etl_output_" (Nat.repr a ++ ".csv")
      (Nat.repr b ++ ".csv") (by decide) (by decide) (by decide) ?_
    rw [← String.append_assoc, ← String.append_assoc]
    exact he

/-- C9 amended witness: two deployments with distinct sanitized names and
two distinct indices stage to distinct paths. -/
theorem C9_distinct_staging_paths_witness :
    tmp_python_path "gpt-4o" ≠ tmp_python_path "gpt-35" ∧
    tmp_source_path 1 ≠ tmp_source_path 2 := by
  have h := C9_distinct_staging_paths "gpt-4o" "gpt-35" 1 2
    (by decide) (by decide)
  exact ⟨h.1, h.2.2.2.1⟩

/-- C10: if every attachment download of the completed thread fails (in
particular if there is no attachment at all), `_extract_csv_results`
returns the empty string; the empty string is not "Error:"-prefixed, so
the collection step classifies it as a success and stores it in the
aggregate mapping. -/
theorem C10_unreadable_attachments_collected_as_success
    (fs : String → Option String) (messages : List ThreadMessage)
    (model_name : String)
    (h : ∀ msg ∈ messages, ∀ att ∈ msg.attachments,
      download_and_read_csv fs att.file_id model_name = none) :
    extract_csv_results fs messages model_name = "" ∧
    pyStartsWith (extract_csv_results fs messages model_name) "Error:"
      = false ∧
    collect_successful_outputs [model_name]
        [Except.ok (extract_csv_results fs messages model_name)]
      = [(model_name, "")] := by
  have he := extract_csv_results_empty fs messages model_name h
  refine ⟨he, by rw [he]; rfl, ?_⟩
  rw [he]
  simp [collect_successful_outputs, dict_insert,
    show pyStartsWith "" "Error:" = false from rfl]

/-- C10 witness: a thread with one unreadable attachment yields the empty
string and it is collected as a success. -/
theorem C10_unreadable_attachments_witness :
    extract_csv_results (fun _ => none)
        [⟨[⟨"f1", "/mnt/data/out.csv"⟩]⟩] "m" = "" ∧
    collect_successful_outputs ["m"]
        [Except.ok (extract_csv_results (fun _ => none)
          [⟨[⟨"f1", "/mnt/data/out.csv"⟩]⟩] "m")]
      = [("m", "")] := by
  have h := C10_unreadable_attachments_collected_as_success (fun _ => none)
    [⟨[⟨"f1", "/mnt/data/out.csv"⟩]⟩] "m"
    (fun msg _ att _ => rfl)
  exact ⟨h.1, h.2.2⟩

/-- C8 witness: status "failed" on attempt 1 ends the runner after exactly
one run with no continuation prompt. -/
theorem C8_run_failed_immediate_witness :
    execute_agent_task ⟨fun _ => true, fun _ => "boom", fun _ => false, ""⟩
        "m1"
      = (.run_failed "Run failed: boom", 1, 0) ∧
    execute_reorder_task
        ⟨fun _ => true, fun _ => "boom", fun _ => false, ""⟩ "out"
      = ("Error: Run failed: boom", 1, 0) := by
  have h := C8_run_failed_immediate
    ⟨fun _ => true, fun _ => "boom", fun _ => false, ""⟩ "m1" "out" 1
    (by decide) (by decide) rfl (fun j hj hj' => by omega)
  exact ⟨h.1, h.2 rfl⟩

end EtlAgent
